import Mathlib

/-!
Verification development for the keylol link-parser plugin
(`astrbot_plugin_keylol_parser`).  The Python source is shallowly embedded:
pure functions become Lean functions, effectful code (HTTP attempts, file
writes, sleeps, message emission) is modelled by passing the outcome of each
external effect in explicitly and collecting the produced effects in traces.
Python strings are modelled as Lean `String` / `List Char` (both are sequences
of unicode code points), Python `int` as `Int`/`Nat`.
-/

namespace KeylolPlugin

/-! ## Content model (`src/core/data.py`) -/

/-- Class `Platform` from `data.py`: a named source site. -/
structure Platform where
  name : String
  display_name : String
deriving DecidableEq, Repr

/-- A media reference: either an already-resolved local path (`str`) or a
pending `asyncio.Task[Path]` (modelled by a task id resolved through an
environment). -/
inductive MediaRef where
  | local (path : String)
  | pending (taskId : Nat)
deriving DecidableEq, Repr

/-- The `Content` class hierarchy of `data.py` (Image/Video/Audio/Dynamic/
File/Graphics).  The float `duration` fields are irrelevant to every claim
and floating point is not embeddable, so they are omitted. -/
inductive Content where
  | image (path : MediaRef)
  | video (path : MediaRef) (cover : Option MediaRef)
  | audio (path : MediaRef)
  | dynamic (path : MediaRef)
  | file (path : MediaRef)
  | graphics (path : MediaRef) (text : Option String) (alt : Option String)
deriving DecidableEq, Repr

/-- Class `Author` from `data.py`. -/
structure Author where
  name : Option String := none
  avatar : Option MediaRef := none
  description : Option String := none
deriving DecidableEq, Repr

/-- Class `ParseResult` from `data.py` (the `repost` self-reference is dropped:
no claim touches it and it never affects the embedded methods). -/
structure ParseResult where
  platform : Platform
  title : Option String := none
  text : Option String := none
  url : Option String := none
  author : Option Author := none
  contents : List Content := []
  timestamp : Option Int := none
deriving DecidableEq, Repr

/-- Python truthiness of an `Optional[str]`: `None` and `""` are falsy. -/
def pyTruthyStr : Option String → Bool
  | none => false
  | some s => s != ""

/-- Python truthiness of an `Optional[int]`: `None` and `0` are falsy. -/
def pyTruthyInt : Option Int → Bool
  | none => false
  | some n => n != 0

/-- Method `ParseResult.get_resource_id` (`data.py` lines 45-61).  The
`uuid.uuid4().hex` value of the final branch is passed in as `uuidHex`. -/
def get_resource_id (r : ParseResult) (uuidHex : String) : String :=
  if pyTruthyStr r.url then
    r.platform.name ++ ":" ++ r.url.getD ""
  else if pyTruthyStr r.title then
    r.platform.name ++ ":" ++ r.title.getD ""
  else if pyTruthyInt r.timestamp then
    r.platform.name ++ ":" ++ toString (r.timestamp.getD 0)
  else if !r.contents.isEmpty then
    r.platform.name ++ ":" ++ toString r.contents.length
  else
    r.platform.name ++ ":" ++ uuidHex

/-! ## Downloader (`src/core/download.py`)

`Downloader.download_file` is async I/O; it is embedded by passing in the
outcome of every HTTP attempt (`AttemptOutcome`, indexed by attempt number)
and by recording the effects the loop performs: the byte sizes of the files
written to the cache file and the sleep durations between attempts. -/

/-- What one `session.get` round-trip does, as observed by `download_file`:
either `raise_for_status` throws a `ClientResponseError` with some status,
or the response is successful with an optional `Content-Length` header
(a string) and a body of `bodySize` bytes. -/
inductive AttemptOutcome where
  | httpError (status : Nat)
  | success (contentLength : Option String) (bodySize : Nat)
deriving DecidableEq, Repr

/-- The exception alive inside the retry loop's `except` handler. -/
inductive AttemptErr where
  | zeroSize
  | clientResponseError (status : Nat)
  | valueError
deriving DecidableEq, Repr

/-- The downloader exceptions of `exception.py` that `download_file` can
surface to its caller. -/
inductive DlException where
  | downloadException
  | downloadLimitException
  | sizeLimitException
  | zeroSizeException
deriving DecidableEq, Repr

/-- Python `int(s)` on a header string: optional sign then decimal digits,
`ValueError` (`none`) otherwise (Python's extra tolerance for surrounding
whitespace and underscores never occurs in a `Content-Length` value). -/
def pyParseInt (s : String) : Option Int :=
  let p : Int × List Char :=
    match s.toList with
    | '-' :: rest => (-1, rest)
    | '+' :: rest => (1, rest)
    | cs => (1, cs)
  if p.2.isEmpty || !p.2.all Char.isDigit then none
  else some (p.1 *
    (p.2.foldl (fun acc c => acc * 10 + (c.toNat - '0'.toNat)) 0 : Nat))

/-- One iteration of the `download_file` loop body (the `try` block):
returns the byte size written to the cache file in this attempt (if the
write was reached) and either success or the raised exception.
Mirrors `download.py` lines 49-69: `raise_for_status`, the
`Content-Length` truthiness check plus `int(...)` parse, the zero-size
check before writing, the chunked write, and the on-disk zero-size check. -/
def runAttempt : AttemptOutcome → Option Nat × Except AttemptErr Unit
  | .httpError status => (none, .error (.clientResponseError status))
  | .success contentLength bodySize =>
    let write : Option Nat × Except AttemptErr Unit :=
      if bodySize = 0 then (some 0, .error .zeroSize) else (some bodySize, .ok ())
    match contentLength with
    | none => write
    | some h =>
      if h.isEmpty then write
      else
        match pyParseInt h with
        | none => (none, .error .valueError)
        | some size => if size = 0 then (none, .error .zeroSize) else write

/-- Observable trace of one `download_file` call: cache-file writes (byte
sizes, in order), sleeps (in time units, in order), and the result. -/
structure DlTrace where
  writes : List Nat
  sleeps : List Nat
  result : Except DlException Unit
deriving Repr

/-- Final translation of the exception escaping the last attempt
(`download.py` lines 74-76): `ClientResponseError` with status 429 becomes
`DownloadLimitException`, everything else becomes `DownloadException`. -/
def finalErr : AttemptErr → DlException
  | .clientResponseError 429 => .downloadLimitException
  | _ => .downloadException

/-- The retry loop of `download_file`: `remaining` attempts are still
allowed after the current one (`attempt` is the current loop index).  On
failure with attempts left it sleeps `1 + attempt` and retries. -/
def dlGo (outcome : Nat → AttemptOutcome) : Nat → Nat → DlTrace
  | 0, attempt =>
    match runAttempt (outcome attempt) with
    | (w, .ok _) => ⟨w.toList, [], .ok ()⟩
    | (w, .error e) => ⟨w.toList, [], .error (finalErr e)⟩
  | rem + 1, attempt =>
    match runAttempt (outcome attempt) with
    | (w, .ok _) => ⟨w.toList, [], .ok ()⟩
    | (w, .error _) =>
      let t := dlGo outcome rem (attempt + 1)
      ⟨w.toList ++ t.writes, (1 + attempt) :: t.sleeps, t.result⟩

/-- Method `Downloader.download_file` (`download.py` lines 29-76) with
`retries = self.config.download_retry_times`; the loop runs for
`attempt in range(retries + 1)`. -/
def download_file (retries : Nat) (outcome : Nat → AttemptOutcome) : DlTrace :=
  dlGo outcome retries 0

/-- The default cache file name when `file_name` is not supplied:
`url.split("/")[-1]` (`download.py` lines 40-41). -/
def defaultFileName (url : String) : String :=
  (url.splitOn "/").getLast!

/-! ## Renderer (`src/core/render.py`) -/

/-- The card cache path computed at the top of `render_card`
(`render.py` line 97): `cache_dir / f"card_{resource_id with ':'→'_'}.png"`
with the default `cache_dir = "data/cache"` from `config.py`. -/
def cardCachePath (r : ParseResult) (uuidHex : String) : String :=
  "data/cache/" ++ "card_" ++ (get_resource_id r uuidHex).replace ":" "_" ++ ".png"

/-- Method `Renderer.render_card` (`render.py` lines 87-109).  Two
effectful steps can raise: `cache.parent.mkdir(parents=True, exist_ok=True)`
at line 98, which runs BEFORE the `try` block and whose exception therefore
propagates uncaught (its outcome is passed in as `mkdirOutcome`), and the
body of the `try` block (image creation, PNG encoding, file write), whose
outcome is passed in as `internal` and whose every failure the
`except Exception` handler at line 107 maps to `.ok none`.  The return
type `Except String (Option String)` keeps exception propagation
observable. -/
def render_card (r : ParseResult) (uuidHex : String)
    (mkdirOutcome : Except String Unit) (internal : Except String Unit) :
    Except String (Option String) :=
  let cache := cardCachePath r uuidHex
  match mkdirOutcome with
  | .error e => .error e
  | .ok _ =>
    match internal with
    | .ok _ => .ok (some cache)
    | .error _ => .ok none

/-- Loop of `Renderer._wrap_text` (`render.py` lines 195-221), character-greedy
wrapping.  Strings are modelled as `List Char`; the font-metric width
`font.getbbox(test_line)[2] - font.getbbox(test_line)[0]` is abstracted
into the `measure` argument. -/
def wrapGo (measure : List Char → Int) (maxWidth : Int) :
    List (List Char) → List Char → List Char → List (List Char)
  | lines, current, [] => if current.isEmpty then lines else lines ++ [current]
  | lines, current, c :: cs =>
    let test := current ++ [c]
    if measure test > maxWidth then
      wrapGo measure maxWidth (lines ++ [current]) [c] cs
    else
      wrapGo measure maxWidth lines test cs

/-- Entry point of `Renderer._wrap_text`: starts with no committed lines and an
empty current line. -/
def wrap_text (measure : List Char → Int) (text : List Char) (maxWidth : Int) :
    List (List Char) :=
  wrapGo measure maxWidth [] [] text

/-! ## Sender (`src/core/sender.py`)

`Sender.send_parse_result` emits message segments through `event.send`; the
embedding returns the ordered list of emitted segments.  The rendered card
path (result of `render_card`, `None` on render failure) is passed in as
`card`; pending download tasks are resolved through the `tasks`
environment. -/

/-- An outbound message segment: `MessageSegment.image(path=...)` or
`MessageSegment.forward(node_list=...)`, where each node is the dict
`{"type": "node", "data": {"name": ..., "uin": ..., "content": MessageChain([seg])}}`
(modelled as `(name, uin, seg)`). -/
inductive MsgSeg where
  | image (path : String)
  | forward (nodes : List (String × String × MsgSeg))
deriving Repr

/-- Resolve a media reference to a local path: `Content.get_path`
(`data.py` lines 70-74) awaits a pending task or returns the stored path. -/
def MediaRef.getPath (tasks : Nat → String) : MediaRef → String
  | .local p => p
  | .pending t => tasks t

/-- The media reference stored in a `Content` (its `path` field). -/
def Content.pathRef : Content → MediaRef
  | .image p => p
  | .video p _ => p
  | .audio p => p
  | .dynamic p => p
  | .file p => p
  | .graphics p _ _ => p

/-- Modelled from the spec: `MediaContent`, imported by `sender.py` from
`.data` but absent from `src/`, is the base class of the media `Content`
variants — per spec §3 every `Content` variant carries a media reference,
so `isinstance(content, MediaContent)` holds for every content item. -/
def isMediaContentInstance (_ : Content) : Bool := true

/-- The send plan dict of `Sender._build_send_plan`
(`sender.py` lines 49-69). -/
structure SendPlan where
  send_preview : Bool
  send_contents : Bool
  force_merge : Bool
deriving DecidableEq, Repr

/-- Method `Sender._build_send_plan`: `force_merge` iff
`len(result.contents) > self.cfg.forward_threshold`. -/
def build_send_plan (forwardThreshold : Nat) (r : ParseResult) : SendPlan :=
  { send_preview := true
    send_contents := true
    force_merge := decide (r.contents.length > forwardThreshold) }

/-- Method `Sender._build_segment` (`sender.py` lines 112-127): resolves the
content's path and wraps it in an image segment when the content is a
`MediaContent`, otherwise yields `None`. -/
def build_segment (tasks : Nat → String) (c : Content) : Option MsgSeg :=
  let path := c.pathRef.getPath tasks
  if isMediaContentInstance c then some (.image path) else none

/-- Method `Sender._merge_segments_if_needed` (`sender.py` lines 129-158): pass
the segments through unchanged when not forced to merge and there is at
most one of them; otherwise wrap them, in order, into a single forward
segment whose nodes carry the fixed sender identity. -/
def merge_segments_if_needed (segs : List MsgSeg) (forceMerge : Bool) : List MsgSeg :=
  if !forceMerge && segs.length ≤ 1 then segs
  else [.forward (segs.map (fun s => ("机器人", "123456", s)))]

/-- Method `Sender._send_preview_card` (`sender.py` lines 71-89): when the plan
asks for a preview and the renderer produced a card path, emit one image
segment for it. -/
def send_preview_card (plan : SendPlan) (card : Option String) : List MsgSeg :=
  if plan.send_preview then
    match card with
    | some p => [.image p]
    | none => []
  else []

/-- Method `Sender._build_segments` (`sender.py` lines 91-110). -/
def build_segments (tasks : Nat → String) (plan : SendPlan) (r : ParseResult) :
    List MsgSeg :=
  if plan.send_contents then r.contents.filterMap (build_segment tasks) else []

/-- Method `Sender.send_parse_result` (`sender.py` lines 24-47): the ordered list
of segments pushed through `event.send` — preview card first, then the
(possibly merged) content segments. -/
def send_parse_result (forwardThreshold : Nat) (tasks : Nat → String)
    (card : Option String) (r : ParseResult) : List MsgSeg :=
  let plan := build_send_plan forwardThreshold r
  let cardMsgs := send_preview_card plan card
  let segs := build_segments tasks plan r
  let out := merge_segments_if_needed segs plan.force_merge
  cardMsgs ++ out

/-! ## A small regex engine for the `re.sub` rules of
`KeylolParser.clean_keylol_text` (`src/core/parsers/keylol.py`)

The cleaning pipeline applies `re.sub(pattern, replacement, text, flags)`
for a fixed ordered rule list.  The patterns use only: literals, `.` (always
under `re.DOTALL` where it occurs as a wildcard), character classes
(`[a-zA-Z0-9_]`, `[ \t]`, `[|]`, `\d`, `\s`), greedy `+`/`*`/`{3,}`, lazy
`*?`, ordered alternation, `(?:...)?`, and the anchors `^`/`$`.  The engine
below implements exactly these with Python's backtracking semantics
(leftmost match; greedy tries longer first, lazy shorter first; alternation
in written order).  All replacement strings are literals (no group refs).
-/

/-- Python `\s` for `str` patterns (Unicode whitespace). -/
def isPySpace (c : Char) : Bool :=
  c = ' ' || c = '\t' || c = '\n' || c = '\r' || c = '\x0b' || c = '\x0c' ||
  (0x1c ≤ c.val && c.val ≤ 0x1f) || c.val = 0x85 || c.val = 0xa0 ||
  c.val = 0x1680 || (0x2000 ≤ c.val && c.val ≤ 0x200a) ||
  c.val = 0x2028 || c.val = 0x2029 || c.val = 0x202f || c.val = 0x205f ||
  c.val = 0x3000

/-- Class `[a-zA-Z0-9_]`. -/
def isWordChar (c : Char) : Bool :=
  c.isAlpha || c.isDigit || c = '_'

/-- Python `\d` (ASCII digits; the cleaned forum text only carries ASCII
digits). -/
def isPyDigit (c : Char) : Bool := c.isDigit

/-- Class `[ \t]`. -/
def isSpaceTab (c : Char) : Bool := c = ' ' || c = '\t'

/-- Regex abstract syntax, as used by the cleaning rules.  `anyc` is `.`
under `re.DOTALL`; `dollar` is `$` (end of string, or just before a final
newline). -/
inductive Rx where
  | eps : Rx
  | lit : Char → Rx
  | anyc : Rx
  | cls : (Char → Bool) → Rx
  | seq : Rx → Rx → Rx
  | alt : Rx → Rx → Rx
  | starG : Rx → Rx
  | starL : Rx → Rx
  | dollar : Rx

/-- Literal string pattern. -/
def rxStr (s : String) : Rx :=
  s.toList.foldr (fun c acc => .seq (.lit c) acc) .eps

/-- Greedy `+`. -/
def rxPlus (r : Rx) : Rx := .seq r (.starG r)

/-- Greedy `?` (`(?:...)?`): try the body first, then empty. -/
def rxOpt (r : Rx) : Rx := .alt r .eps

/-- Counted repetition `\x7b3,\x7d` (greedy). -/
def rxRep3 (r : Rx) : Rx := .seq r (.seq r (.seq r (.starG r)))

/-- Ordered alternation over a list of literal strings. -/
def rxAltStrs : List String → Rx
  | [] => .eps
  | [s] => rxStr s
  | s :: rest => .alt (rxStr s) (rxAltStrs rest)

/-- Size of a pattern, used to bound the matcher's recursion depth. -/
def rxSize : Rx → Nat
  | .eps => 1
  | .lit _ => 1
  | .anyc => 1
  | .cls _ => 1
  | .seq a b => rxSize a + rxSize b + 1
  | .alt a b => rxSize a + rxSize b + 1
  | .starG a => rxSize a + 1
  | .starL a => rxSize a + 1
  | .dollar => 1

/-- Backtracking matcher in continuation-passing style: try to match `rx`
at the start of `s`; on success the continuation receives the remaining
suffix.  The first (highest-priority) overall success is returned, which
reproduces Python's greedy/lazy/ordered-alternation preferences.  `fuel`
bounds the recursion depth; every starred sub-pattern of the embedded rules
consumes at least one character per iteration, so the fuel computed by
`rxFuel` below is never exhausted on them. -/
def rxMatch : Nat → Rx → List Char → (List Char → Option (List Char)) →
    Option (List Char)
  | 0, _, _, _ => none
  | fuel + 1, rx, s, k =>
    match rx with
    | .eps => k s
    | .lit c =>
      match s with
      | [] => none
      | c2 :: rest => if c2 = c then k rest else none
    | .anyc =>
      match s with
      | [] => none
      | _ :: rest => k rest
    | .cls p =>
      match s with
      | [] => none
      | c2 :: rest => if p c2 then k rest else none
    | .seq a b => rxMatch fuel a s (fun rest => rxMatch fuel b rest k)
    | .alt a b => (rxMatch fuel a s k).orElse (fun _ => rxMatch fuel b s k)
    | .starG a =>
      (rxMatch fuel a s (fun rest =>
        if rest.length < s.length then rxMatch fuel (.starG a) rest k
        else none)).orElse (fun _ => k s)
    | .starL a =>
      (k s).orElse (fun _ =>
        rxMatch fuel a s (fun rest =>
          if rest.length < s.length then rxMatch fuel (.starL a) rest k
          else none))
    | .dollar => if s.isEmpty || s = ['\n'] then k s else none

/-- Ample recursion-depth budget for `rxMatch`. -/
def rxFuel (rx : Rx) (s : List Char) : Nat :=
  (rxSize rx + 2) * (2 * s.length + 4)

/-- Global substitution: scan left to right, at each position attempt a
match; on a match, emit the replacement and continue after the match (this
is `re.sub`'s scan; none of the embedded patterns can match the empty
string, the zero-width branch is only there to keep the model total). -/
def rxSubGo (rx : Rx) (repl : List Char) : Nat → List Char → List Char
  | 0, s => s
  | fuel + 1, s =>
    match rxMatch (rxFuel rx s) rx s some with
    | some rest =>
      if rest.length < s.length then repl ++ rxSubGo rx repl fuel rest
      else
        match s with
        | [] => repl
        | c :: tail => repl ++ c :: rxSubGo rx repl fuel tail
    | none =>
      match s with
      | [] => []
      | c :: tail => c :: rxSubGo rx repl fuel tail

/-- Model of `re.sub(pattern, repl, s)` for an unanchored pattern. -/
def rxSub (rx : Rx) (repl : List Char) (s : List Char) : List Char :=
  rxSubGo rx repl (s.length + 1) s

/-- Model of `re.sub` for a pattern starting with `^` (no `re.MULTILINE` anywhere in
the rules, so the anchor can only match at position 0 and at most one
substitution happens). -/
def rxSubStart (rx : Rx) (repl : List Char) (s : List Char) : List Char :=
  match rxMatch (rxFuel rx s) rx s some with
  | some rest => repl ++ rest
  | none => s

/-- One `(pattern, replacement, flags)` rule of `clean_keylol_text`;
`anchoredStart` records a leading `^`. -/
structure SubRule where
  rx : Rx
  repl : String
  anchoredStart : Bool := false

/-- Apply one rule: `text = re.sub(pattern, replacement, text, flags)`. -/
def applySubRule (s : String) (r : SubRule) : String :=
  let cs := s.toList
  let out :=
    if r.anchoredStart then rxSubStart r.rx r.repl.toList cs
    else rxSub r.rx r.repl.toList cs
  String.mk out

/-- The ordered rule list of `KeylolParser.clean_keylol_text`
(`keylol.py` lines 170-201), pattern by pattern. -/
def keylolRules : List SubRule := [
  -- (r"引用.*?：", "", re.DOTALL)
  ⟨.seq (rxStr "引用") (.seq (.starL .anyc) (.lit '：')), "", false⟩,
  -- (r"查看附件.*?", "", re.DOTALL): the trailing lazy star matches empty
  ⟨.seq (rxStr "查看附件") (.starL .anyc), "", false⟩,
  -- (r"Steam商店.*?复制ASF代码", "", re.DOTALL)
  ⟨.seq (rxStr "Steam商店") (.seq (.starL .anyc) (rxStr "复制ASF代码")), "", false⟩,
  ⟨rxStr "Steam商店", "", false⟩,
  ⟨rxStr "Steam评测区", "", false⟩,
  ⟨rxStr "其乐相关帖", "", false⟩,
  ⟨rxStr "SteamDB", "", false⟩,
  ⟨rxStr "AStats", "", false⟩,
  ⟨rxStr "SCE", "", false⟩,
  ⟨rxStr "Barter", "", false⟩,
  ⟨rxStr "Steam客户端中查看", "", false⟩,
  ⟨rxStr "入库或安装", "", false⟩,
  ⟨rxStr "复制ASF代码", "", false⟩,
  -- (r"本文为.*?严禁转载", "", re.DOTALL)
  ⟨.seq (rxStr "本文为") (.seq (.starL .anyc) (rxStr "严禁转载")), "", false⟩,
  -- (r"[a-zA-Z0-9_]+\.(jpg|jpeg|png|gif|bmp|webp)", "", 0)
  ⟨.seq (rxPlus (.cls isWordChar))
    (.seq (.lit '.') (rxAltStrs ["jpg", "jpeg", "png", "gif", "bmp", "webp"])),
    "", false⟩,
  -- (r"\(\d+(?:\.\d+)? KB, 下载次数: \d+\)", "", 0)
  ⟨.seq (.lit '(') (.seq (rxPlus (.cls isPyDigit))
    (.seq (rxOpt (.seq (.lit '.') (rxPlus (.cls isPyDigit))))
      (.seq (rxStr " KB, 下载次数: ")
        (.seq (rxPlus (.cls isPyDigit)) (.lit ')'))))), "", false⟩,
  ⟨rxStr "下载附件", "", false⟩,
  -- (r"\d+\s+小时前", "", 0)
  ⟨.seq (rxPlus (.cls isPyDigit)) (.seq (rxPlus (.cls isPySpace)) (rxStr "小时前")),
    "", false⟩,
  ⟨rxStr "上传", "", false⟩,
  -- (r"\n{3,}", "\n\n", 0)
  ⟨rxRep3 (.lit '\n'), "\n\n", false⟩,
  -- (r"[ \t]+", " ", 0)
  ⟨rxPlus (.cls isSpaceTab), " ", false⟩,
  -- (r"\n\s+\n", "\n\n", 0)
  ⟨.seq (.lit '\n') (.seq (rxPlus (.cls isPySpace)) (.lit '\n')), "\n\n", false⟩,
  -- (r"[|]+\s*", "", 0)
  ⟨.seq (rxPlus (.lit '|')) (.starG (.cls isPySpace)), "", false⟩,
  -- (r"^\s+", "", 0)
  ⟨rxPlus (.cls isPySpace), "", true⟩,
  -- (r"\s+$", "", 0)
  ⟨.seq (rxPlus (.cls isPySpace)) .dollar, "", false⟩]

/-- Python `str.strip()`: drop Unicode whitespace from both ends. -/
def pyStrip (s : String) : String :=
  String.mk (((s.toList.dropWhile isPySpace).reverse.dropWhile isPySpace).reverse)

/-- The rule pass of `clean_keylol_text`: the `for rule in rules` loop. -/
def applyKeylolRules (text : String) : String :=
  keylolRules.foldl applySubRule text

/-- Method `KeylolParser.clean_keylol_text` (`keylol.py` lines 168-213): apply
every rule in order, `strip()`, and truncate to `max_length` characters
with an ellipsis. -/
def clean_keylol_text (text : String) (maxLength : Nat := 500) : String :=
  let text := applyKeylolRules text
  let text := pyStrip text
  if text.length > maxLength then String.mk (text.toList.take maxLength) ++ "..."
  else text

/-! ## Keylol image extraction and ad filtering
(`KeylolParser._parse`, `keylol.py` lines 96-136) -/

/-- Does `hay` start with `needle`? -/
def listStartsWith : List Char → List Char → Bool
  | _, [] => true
  | [], _ :: _ => false
  | h :: hs, n :: ns => h = n && listStartsWith hs ns

/-- Does `hay` contain `needle` as a contiguous run? -/
def listContains : List Char → List Char → Bool
  | [], needle => needle.isEmpty
  | h :: t, needle => listStartsWith (h :: t) needle || listContains t needle

/-- Python's `in` on strings (substring containment). -/
def strContains (hay needle : String) : Bool :=
  listContains hay.toList needle.toList

/-- Python's `str.startswith`. -/
def strStartsWith (s pre : String) : Bool :=
  listStartsWith s.toList pre.toList

/-- Python's `str.lower()` (the URLs involved are ASCII). -/
def strToLower (s : String) : String :=
  String.mk (s.toList.map Char.toLower)

/-- An `<img>` node as seen by `_parse`: the attributes it reads
(`.get(attr, "")` defaults to `""`, plain `.get(attr)` to `None`) and its
parent tag (name, `href` attribute with `""` default). -/
structure ImgTag where
  src : String := ""
  file : String := ""
  zoomfile : String := ""
  aid : Option String := none
  width : Option String := none
  height : Option String := none
  parent : Option (String × String) := none
deriving DecidableEq, Repr

/-- The attachment-placeholder substitution (`keylol.py` lines 99-111):
when `src` is the placeholder, prefer a `file` attribute that starts with
`http`, then a `zoomfile` attribute that starts with `http`. -/
def resolveImgUrl (img : ImgTag) : String :=
  if img.src == "static/image/common/none.gif" then
    if img.file != "" && strStartsWith img.file "http" then img.file
    else if img.zoomfile != "" && strStartsWith img.zoomfile "http" then
      img.zoomfile
    else img.src
  else img.src

/-- Ad signal 1 (`keylol.py` line 117): the lower-cased URL contains one of
the ad keywords. -/
def adSignalUrl (imgUrl : String) : Bool :=
  ["ad", "advertisement", "banner"].any
    (fun k => strContains (strToLower imgUrl) k)

/-- Ad signal 2 (`keylol.py` lines 121-124): the image is wrapped in an
`<a>` whose `href` starts with `https://keylol.com/hello/`. -/
def adSignalHello (img : ImgTag) : Bool :=
  match img.parent with
  | some (n, href) => n == "a" && strStartsWith href "https://keylol.com/hello/"
  | none => false

/-- Ad signal 3 (`keylol.py` lines 127-132): no truthy `aid` attribute, the
resolved URL is not the attachment placeholder, and the declared size is
the known ad size 120x240. -/
def adSignalDims (img : ImgTag) (imgUrl : String) : Bool :=
  !pyTruthyStr img.aid && imgUrl != "static/image/common/none.gif" &&
  img.width == some "120" && img.height == some "240"

/-- The full `is_ad` classification of one image. -/
def is_ad (img : ImgTag) (imgUrl : String) : Bool :=
  adSignalUrl imgUrl || adSignalHello img || adSignalDims img imgUrl

/-- Processing of one candidate image (`keylol.py` lines 97-136): resolve
the URL, classify, and keep it only when it is a non-empty `http` URL and
not an ad. -/
def keepImgUrl (img : ImgTag) : Option String :=
  let u := resolveImgUrl img
  if u != "" && strStartsWith u "http" && !is_ad img u then some u else none

/-- The `img_urls` list built by the `for img in img_tags` loop. -/
def extract_img_urls (imgs : List ImgTag) : List String :=
  imgs.filterMap keepImgUrl

/-! ## Pattern registry (`src/main.py`) -/

/-- Keyword order used by `_register_parser`: Python's stable
`patterns.sort(key=lambda x: -len(x[0]))` sorts by descending keyword
length. -/
def kwGE {P : Type} (a b : String × P) : Prop :=
  b.1.length ≤ a.1.length

instance {P : Type} : DecidableRel (@kwGE P) :=
  fun a b => Nat.decLe b.1.length a.1.length

instance {P : Type} : IsTotal (String × P) kwGE :=
  ⟨fun a b => Nat.le_total b.1.length a.1.length⟩

instance {P : Type} : IsTrans (String × P) kwGE :=
  ⟨fun _ _ _ h1 h2 => Nat.le_trans h2 h1⟩

/-- Method `_register_parser` (`main.py` lines 83-95): flatten the
keyword/pattern pairs of all parser classes and sort them by descending
keyword length (stable sort, as Python's `list.sort`; `insertionSort` with
a non-strict order is stable in the same way). -/
def register_patterns {P : Type} (classes : List (List (String × P))) :
    List (String × P) :=
  List.insertionSort kwGE classes.flatten

/-- The matching loop of `on_message` (`main.py` lines 113-120): walk the
table in order; skip an entry whose keyword is not a substring of the text
(without running its pattern); otherwise run `pat.search(text)` and return
the first `(keyword, match)` hit.  A compiled pattern is modelled as its
`search` function `String → Option M`. -/
def matchKeyPattern {M : Type} :
    List (String × (String → Option M)) → String → Option (String × M)
  | [], _ => none
  | (kw, pat) :: rest, text =>
    if !strContains text kw then matchKeyPattern rest text
    else
      match pat text with
      | some m => some (kw, m)
      | none => matchKeyPattern rest text

/-! ## Claims -/

/-- C1: `get_resource_id()` selects its key by first-match priority
url > title > timestamp > content-count > random: a non-empty `url` gives
`"<platform>:<url>"` independent of all other fields; with `url` absent or
empty, a non-empty `title` gives `"<platform>:<title>"`; then a truthy
timestamp, then the content count, then the random fallback, for every
combination of present/absent fields. -/
theorem get_resource_id_priority (r : ParseResult) (uuidHex : String) :
    (∀ u, r.url = some u → u ≠ "" →
      get_resource_id r uuidHex = r.platform.name ++ ":" ++ u)
    ∧ (pyTruthyStr r.url = false → ∀ t, r.title = some t → t ≠ "" →
      get_resource_id r uuidHex = r.platform.name ++ ":" ++ t)
    ∧ (pyTruthyStr r.url = false → pyTruthyStr r.title = false →
      ∀ n, r.timestamp = some n → n ≠ 0 →
      get_resource_id r uuidHex = r.platform.name ++ ":" ++ toString n)
    ∧ (pyTruthyStr r.url = false → pyTruthyStr r.title = false →
      pyTruthyInt r.timestamp = false → r.contents ≠ [] →
      get_resource_id r uuidHex =
        r.platform.name ++ ":" ++ toString r.contents.length)
    ∧ (pyTruthyStr r.url = false → pyTruthyStr r.title = false →
      pyTruthyInt r.timestamp = false → r.contents = [] →
      get_resource_id r uuidHex = r.platform.name ++ ":" ++ uuidHex) := by
  refine ⟨?_, ?_, ?_, ?_, ?_⟩
  · intro u hu hne
    have h : pyTruthyStr (some u) = true := by simp [pyTruthyStr, hne]
    simp [get_resource_id, hu, h]
  · intro h1 t ht hne
    have h2 : pyTruthyStr (some t) = true := by simp [pyTruthyStr, hne]
    simp [get_resource_id, h1, ht, h2]
  · intro h1 h2 n hn hne
    have h3 : pyTruthyInt (some n) = true := by simp [pyTruthyInt, hne]
    simp [get_resource_id, h1, h2, hn, h3]
  · intro h1 h2 h3 hc
    simp [get_resource_id, h1, h2, h3, List.isEmpty_iff, hc]
  · intro h1 h2 h3 hc
    simp [get_resource_id, h1, h2, h3, List.isEmpty_iff, hc]

/-- Witness for C1: the five priority branches at concrete results. -/
theorem get_resource_id_priority_witness :
    get_resource_id { platform := ⟨"keylol", "其乐"⟩, url := some "u",
                      title := some "t", timestamp := some 9 } "R" = "keylol:u"
    ∧ get_resource_id { platform := ⟨"keylol", "其乐"⟩, url := some "",
                        title := some "t", timestamp := some 9 } "R" = "keylol:t"
    ∧ get_resource_id { platform := ⟨"keylol", "其乐"⟩, timestamp := some 9,
                        contents := [.image (.local "p")] } "R" = "keylol:9"
    ∧ get_resource_id { platform := ⟨"keylol", "其乐"⟩,
                        contents := [.image (.local "p")] } "R" = "keylol:1"
    ∧ get_resource_id { platform := ⟨"keylol", "其乐"⟩ } "R" = "keylol:R" := by
  refine ⟨(get_resource_id_priority _ "R").1 "u" rfl (by decide),
    (get_resource_id_priority _ "R").2.1 (by decide) "t" rfl (by decide),
    (get_resource_id_priority _ "R").2.2.1 (by decide) (by decide) 9 rfl
      (by decide),
    (get_resource_id_priority _ "R").2.2.2.1 (by decide) (by decide) (by decide)
      (by decide),
    (get_resource_id_priority _ "R").2.2.2.2 (by decide) (by decide) (by decide)
      rfl⟩

/-- C10: a `ParseResult` with falsy `url` and `title` and with
`timestamp = 0` (present but zero) skips the `"<platform>:<timestamp>"`
form: Python's `if self.timestamp:` is false at `0`, so the id falls
through to the content-count or random fallback. -/
theorem get_resource_id_zero_timestamp (r : ParseResult) (uuidHex : String)
    (h1 : pyTruthyStr r.url = false) (h2 : pyTruthyStr r.title = false)
    (h3 : r.timestamp = some 0) :
    get_resource_id r uuidHex =
      (if r.contents.isEmpty then r.platform.name ++ ":" ++ uuidHex
       else r.platform.name ++ ":" ++ toString r.contents.length) := by
  have ht : pyTruthyInt r.timestamp = false := by simp [pyTruthyInt, h3]
  by_cases hc : r.contents.isEmpty <;>
    simp [get_resource_id, h1, h2, ht, hc]

/-- Witness for C10: with a zero timestamp and one content item, the id is
the content-count form, not `"keylol:0"`. -/
theorem get_resource_id_zero_timestamp_witness :
    get_resource_id { platform := ⟨"keylol", "其乐"⟩, timestamp := some 0,
                      contents := [.image (.local "p")] } "R" =
      (if ([Content.image (.local "p")] : List Content).isEmpty
       then "keylol" ++ ":" ++ "R"
       else "keylol" ++ ":" ++ toString ([Content.image (.local "p")] : List Content).length) :=
  get_resource_id_zero_timestamp
    { platform := ⟨"keylol", "其乐"⟩, timestamp := some 0,
      contents := [.image (.local "p")] } "R" (by decide) (by decide) rfl

/-- Counterexample to C7 as stated: `render_card` CAN raise.  The call
`cache.parent.mkdir(parents=True, exist_ok=True)` at `render.py` line 98
runs before the `try` block begins at line 100, so an `OSError` raised
there propagates uncaught out of `render_card` — even when the rendering
step itself would have succeeded — instead of the call returning a path
or `None`. -/
theorem render_card_mkdir_counterexample :
    render_card { platform := ⟨"keylol", "其乐"⟩, url := some "u" } "R"
      (.error "PermissionError") (.ok ()) =
      .error "PermissionError" := rfl

/-- C7 amended: every failure inside `render_card`'s `try` block (image
creation, PNG encoding, cache-file write) is caught and mapped to a `None`
result, so whenever the pre-`try` cache-directory creation succeeds the
call never raises and returns either the card cache path or `None`; only
an exception from that pre-`try` `mkdir` itself propagates, unchanged. -/
theorem render_card_contains_render_errors (r : ParseResult)
    (uuidHex : String) (mkdirOutcome internal : Except String Unit) :
    (∀ u, mkdirOutcome = .ok u →
      render_card r uuidHex mkdirOutcome internal =
        .ok (if internal.isOk then some (cardCachePath r uuidHex) else none))
    ∧ (∀ e, mkdirOutcome = .error e →
      render_card r uuidHex mkdirOutcome internal = .error e) := by
  constructor
  · rintro u rfl
    cases internal <;> rfl
  · rintro e rfl
    rfl

/-- Witness for the amended C7: with the cache directory created, a failed
render degrades to `None` and a successful render returns the card path;
with `mkdir` failing, the error propagates. -/
theorem render_card_contains_render_errors_witness :
    render_card { platform := ⟨"keylol", "其乐"⟩ } "R" (.ok ())
      (.error "draw failed") = .ok none
    ∧ render_card { platform := ⟨"keylol", "其乐"⟩ } "R" (.ok ())
      (.ok ()) = .ok (some (cardCachePath { platform := ⟨"keylol", "其乐"⟩ } "R"))
    ∧ render_card { platform := ⟨"keylol", "其乐"⟩ } "R"
      (.error "PermissionError") (.ok ()) = .error "PermissionError" :=
  ⟨(render_card_contains_render_errors { platform := ⟨"keylol", "其乐"⟩ } "R"
      (.ok ()) (.error "draw failed")).1 () rfl,
   (render_card_contains_render_errors { platform := ⟨"keylol", "其乐"⟩ } "R"
      (.ok ()) (.ok ())).1 () rfl,
   (render_card_contains_render_errors { platform := ⟨"keylol", "其乐"⟩ } "R"
      (.error "PermissionError") (.ok ())).2 "PermissionError" rfl⟩

/-- C5: delivery plan.  The emitted sequence is: the rendered card (when
the renderer produced one) first, as one standalone unit; then the content
segments, wrapped into exactly one forwarded-node-list unit iff
`force_merge` (content count > `forward_threshold`) or there is more than
one segment, node order following the contents order, the card never among
the nodes; otherwise each segment standalone.  In particular with
`forward_threshold = 5` and 6 content items the output is exactly one card
unit followed by one forwarded-node-list unit. -/
theorem send_parse_result_plan (forwardThreshold : Nat) (tasks : Nat → String)
    (card : Option String) (r : ParseResult) :
    (send_parse_result forwardThreshold tasks card r =
      (match card with | some p => [MsgSeg.image p] | none => []) ++
      (let segs := r.contents.filterMap (build_segment tasks)
       if r.contents.length > forwardThreshold ∨ segs.length > 1 then
         [MsgSeg.forward (segs.map (fun s => ("机器人", "123456", s)))]
       else segs))
    ∧ (∀ p₁ p₂ p₃ p₄ p₅ p₆ c : String,
      send_parse_result 5 tasks (some c)
        { platform := ⟨"keylol", "其乐"⟩,
          contents := [.image (.local p₁), .image (.local p₂),
                       .image (.local p₃), .image (.local p₄),
                       .image (.local p₅), .image (.local p₆)] } =
        [MsgSeg.image c,
         MsgSeg.forward [("机器人", "123456", MsgSeg.image p₁),
                         ("机器人", "123456", MsgSeg.image p₂),
                         ("机器人", "123456", MsgSeg.image p₃),
                         ("机器人", "123456", MsgSeg.image p₄),
                         ("机器人", "123456", MsgSeg.image p₅),
                         ("机器人", "123456", MsgSeg.image p₆)]]) := by
  constructor
  · simp only [send_parse_result, build_send_plan, send_preview_card,
      build_segments, merge_segments_if_needed, if_true]
    by_cases h1 : r.contents.length > forwardThreshold
    · simp [h1]
    · by_cases h2 : (r.contents.filterMap (build_segment tasks)).length > 1
      · simp [h1, h2, Nat.not_le.mpr h2]
      · simp [h1, h2, Nat.not_lt.mp h2]
  · intro p₁ p₂ p₃ p₄ p₅ p₆ c
    rfl

/-- The loop invariant of `_wrap_text`: the flattened output equals the
already committed lines, plus the current line, plus the unprocessed
characters. -/
theorem wrapGo_flatten (measure : List Char → Int) (maxW : Int) :
    ∀ (cs : List Char) (lines : List (List Char)) (current : List Char),
      (wrapGo measure maxW lines current cs).flatten =
        lines.flatten ++ current ++ cs := by
  intro cs
  induction cs with
  | nil =>
    intro lines current
    by_cases h : current.isEmpty
    · simp [wrapGo, h, List.isEmpty_iff.mp h]
    · simp [wrapGo, h]
  | cons c cs ih =>
    intro lines current
    by_cases h : measure (current ++ [c]) > maxW
    · simp [wrapGo, h, ih]
    · simp [wrapGo, h, ih]

/-- Committed lines are never dropped. -/
theorem wrapGo_length_mono (measure : List Char → Int) (maxW : Int) :
    ∀ (cs : List Char) (lines : List (List Char)) (current : List Char),
      lines.length ≤ (wrapGo measure maxW lines current cs).length := by
  intro cs
  induction cs with
  | nil =>
    intro lines current
    by_cases h : current.isEmpty <;> simp [wrapGo, h]
  | cons c cs ih =>
    intro lines current
    by_cases h : measure (current ++ [c]) > maxW
    · calc lines.length ≤ (lines ++ [current]).length := by simp
        _ ≤ _ := by simpa [wrapGo, h] using ih (lines ++ [current]) [c]
    · simpa [wrapGo, h] using ih lines (current ++ [c])

/-- With a non-empty current line, the output has strictly more lines than
already committed. -/
theorem wrapGo_length_cur (measure : List Char → Int) (maxW : Int) :
    ∀ (cs : List Char) (lines : List (List Char)) (current : List Char),
      current ≠ [] →
      lines.length + 1 ≤ (wrapGo measure maxW lines current cs).length := by
  intro cs
  induction cs with
  | nil =>
    intro lines current hcur
    simp [wrapGo, List.isEmpty_iff, hcur]
  | cons c cs ih =>
    intro lines current hcur
    by_cases h : measure (current ++ [c]) > maxW
    · calc lines.length + 1 = (lines ++ [current]).length := by simp
        _ ≤ _ := by
          simpa [wrapGo, h] using
            wrapGo_length_mono measure maxW cs (lines ++ [current]) [c]
    · simpa [wrapGo, h] using ih lines (current ++ [c]) (by simp)

/-- When an overflow is still ahead (some non-empty remainder prefix pushes
the current line over `maxW`), at least two more lines get committed. -/
theorem wrapGo_overflow (measure : List Char → Int) (maxW : Int) :
    ∀ (cs : List Char) (lines : List (List Char)) (current : List Char),
      (∃ p q, p ≠ [] ∧ p ++ q = cs ∧ measure (current ++ p) > maxW) →
      lines.length + 2 ≤ (wrapGo measure maxW lines current cs).length := by
  intro cs
  induction cs with
  | nil =>
    intro lines current h
    obtain ⟨p, q, hp, happ, _⟩ := h
    exact absurd (List.append_eq_nil.mp happ).1 hp
  | cons c cs ih =>
    intro lines current h
    obtain ⟨p, q, hp, happ, hover⟩ := h
    match p, hp with
    | p₀ :: p', _ =>
      have hc : p₀ = c := by
        have := congrArg (fun l => l.headI) happ
        simpa using this
      subst hc
      have htail : p' ++ q = cs := by
        simpa using congrArg List.tail happ
      by_cases hfire : measure (current ++ [p₀]) > maxW
      · calc lines.length + 2 = (lines ++ [current]).length + 1 := by simp
          _ ≤ _ := by
            simpa [wrapGo, hfire] using
              wrapGo_length_cur measure maxW cs (lines ++ [current]) [p₀]
                (by simp)
      · rcases p' with _ | ⟨p₁, p''⟩
        · exact absurd (by simpa using hover) hfire
        · have : measure ((current ++ [p₀]) ++ (p₁ :: p'')) > maxW := by
            simpa using hover
          simpa [wrapGo, hfire] using
            ih lines (current ++ [p₀]) ⟨p₁ :: p'', q, by simp, htail, this⟩

/-- C8: `_wrap_text` loses no characters — the concatenation of the
returned lines is the original string — and whenever the measured width
strictly exceeds `maxW` at some character boundary (a non-empty prefix of
the text measures wider than `maxW`), more than one line is returned. -/
theorem wrap_text_spec (measure : List Char → Int) (maxW : Int)
    (text : List Char) :
    (wrap_text measure text maxW).flatten = text ∧
    ((∃ p q, p ≠ [] ∧ p ++ q = text ∧ measure p > maxW) →
      1 < (wrap_text measure text maxW).length) := by
  constructor
  · simpa using wrapGo_flatten measure maxW text [] []
  · intro h
    obtain ⟨p, q, hp, happ, hover⟩ := h
    have := wrapGo_overflow measure maxW text [] []
      ⟨p, q, hp, happ, by simpa using hover⟩
    simpa [wrap_text] using this

/-- Witness for C8: with per-character width 1 and max width 1, the text
`"abc"` has the overflowing prefix `"ab"` and wraps into 3 lines. -/
theorem wrap_text_spec_witness :
    (wrap_text (fun l => (l.length : Int)) ("abc".toList) 1).flatten =
      "abc".toList ∧
    1 < (wrap_text (fun l => (l.length : Int)) ("abc".toList) 1).length :=
  ⟨(wrap_text_spec (fun l => (l.length : Int)) 1 "abc".toList).1,
   (wrap_text_spec (fun l => (l.length : Int)) 1 "abc".toList).2
     ⟨['a', 'b'], ['c'], by decide, by decide, by decide⟩⟩

/-- C9: after registration the keyword-pattern table is ordered by
descending keyword length (and is a permutation of the registered pairs);
for keywords `"ab"` and `"abc"`, `"abc"` comes first; and the matching
loop returns the first table entry whose keyword is contained in the text
(checked before the pattern) and whose pattern search succeeds. -/
theorem register_and_match_spec :
    (∀ (P : Type) (classes : List (List (String × P))),
      List.Sorted kwGE (register_patterns classes)
      ∧ (register_patterns classes).Perm classes.flatten)
    ∧ register_patterns [[("ab", 1)], [("abc", 2)]] = [("abc", 2), ("ab", 1)]
    ∧ (∀ (M : Type) (table : List (String × (String → Option M)))
        (text : String),
      matchKeyPattern table text =
        match table.find? (fun e => strContains text e.1 && (e.2 text).isSome)
        with
        | some e => (e.2 text).map (fun m => (e.1, m))
        | none => none) := by
  refine ⟨fun P classes => ⟨List.sorted_insertionSort kwGE _,
    List.perm_insertionSort kwGE _⟩, by decide, fun M table text => ?_⟩
  induction table with
  | nil => rfl
  | cons e rest ih =>
    obtain ⟨kw, pat⟩ := e
    by_cases hc : strContains text kw
    · cases hm : pat text with
      | some m => simp [matchKeyPattern, hc, List.find?, hm]
      | none => simp [matchKeyPattern, hc, List.find?, hm, ih]
    · simp [matchKeyPattern, hc, List.find?, ih]

/-- A concrete image with an attachment id whose URL contains `banner`. -/
def imgAidBanner : ImgTag :=
  { src := "http://x/banner.jpg", aid := some "1",
    width := some "10", height := some "10" }

/-- A concrete unresolved placeholder image of the fixed ad size, with no
attachment id. -/
def imgPlaceholder120 : ImgTag :=
  { src := "static/image/common/none.gif",
    width := some "120", height := some "240" }

/-- A concrete real-URL 120x240 image without an attachment id. -/
def imgPlain120 : ImgTag :=
  { src := "http://x/pic.png", width := some "120", height := some "240" }

/-- A concrete 120x240 image with an attachment id. -/
def imgAid120 : ImgTag :=
  { src := "http://x/pic.png", aid := some "7",
    width := some "120", height := some "240" }

/-- Counterexample to C3 as stated: (a) an image carrying an attachment id
(`aid="1"`) whose URL contains the keyword `banner` IS classified as an ad
(the URL-keyword signal ignores `aid`), and (b) an attachment-placeholder
image (`src="static/image/common/none.gif"`, no usable `file`/`zoomfile`)
with `width="120" height="240"` and no `aid` is NOT classified as an ad:
the dimension signal requires the resolved URL to differ from the
placeholder. -/
theorem ad_classification_counterexample :
    is_ad imgAidBanner (resolveImgUrl imgAidBanner) = true
    ∧ is_ad imgPlaceholder120 (resolveImgUrl imgPlaceholder120) = false := by
  decide

/-- C3 amended: an image whose resolved URL is not the attachment
placeholder, with `width="120" height="240"` and no truthy `aid`, is
classified as an ad and excluded; an image with a truthy `aid` attribute
never triggers the dimension signal — its classification reduces to the
URL-keyword and enclosing-link signals (and so is not influenced by its
dimensions), but those two can still mark it as an ad. -/
theorem ad_classification_amended (img : ImgTag) :
    (resolveImgUrl img ≠ "static/image/common/none.gif" →
      pyTruthyStr img.aid = false →
      img.width = some "120" → img.height = some "240" →
      is_ad img (resolveImgUrl img) = true ∧ keepImgUrl img = none)
    ∧ (pyTruthyStr img.aid = true →
      is_ad img (resolveImgUrl img) =
        (adSignalUrl (resolveImgUrl img) || adSignalHello img)) := by
  constructor
  · intro hurl haid hw hh
    have hdims : adSignalDims img (resolveImgUrl img) = true := by
      simp [adSignalDims, haid, hw, hh, hurl]
    have had : is_ad img (resolveImgUrl img) = true := by
      simp [is_ad, hdims]
    refine ⟨had, ?_⟩
    simp [keepImgUrl, had]
  · intro haid
    simp [is_ad, adSignalDims, haid]

/-- Witness for the amended C3: a real-URL 120x240 image without `aid` is
an ad and dropped; an `aid`-carrying 120x240 image reduces to the other
two signals. -/
theorem ad_classification_amended_witness :
    (is_ad imgPlain120 (resolveImgUrl imgPlain120) = true
      ∧ keepImgUrl imgPlain120 = none)
    ∧ is_ad imgAid120 (resolveImgUrl imgAid120) =
        (adSignalUrl (resolveImgUrl imgAid120) || adSignalHello imgAid120) :=
  ⟨(ad_classification_amended imgPlain120).1 (by decide) (by decide) rfl rfl,
   (ad_classification_amended imgAid120).2 (by decide)⟩

/-- Counterexample to C4 as stated: the pipeline is not idempotent.
Removing the promotional fragment `"SCE"` from `"SSCECE"` splices a fresh
occurrence of `"SCE"` together, so one pass yields `"SCE"` and a second
pass over that already-cleaned text removes it entirely. -/
theorem clean_keylol_text_not_idempotent :
    clean_keylol_text "SSCECE" = "SCE"
    ∧ clean_keylol_text (clean_keylol_text "SSCECE") = ""
    ∧ clean_keylol_text (clean_keylol_text "SSCECE") ≠
        clean_keylol_text "SSCECE" := by
  refine ⟨by decide, by decide, by decide⟩

/-- C4 amended: the pipeline is idempotent only on texts that every
substitution rule already leaves unchanged — a removal can splice together
a new match (e.g. `"SSCECE"` cleans to `"SCE"`, which cleans to `""`).
For any trimmed text of at most `max_length` characters that is a fixed
point of the rule pass, `clean_keylol_text` returns it unchanged (so the
output of a pass on which no rule re-fires is stable under re-cleaning). -/
theorem clean_keylol_text_fixed_point (s : String)
    (hrules : applyKeylolRules s = s) (hstrip : pyStrip s = s)
    (hlen : s.length ≤ 500) :
    clean_keylol_text s = s := by
  simp only [clean_keylol_text, hrules, hstrip]
  simp [Nat.not_lt.mpr hlen]

/-- Witness for the amended C4 at the rule-pass fixed point `"abc"`. -/
theorem clean_keylol_text_fixed_point_witness :
    clean_keylol_text "abc" = "abc" :=
  clean_keylol_text_fixed_point "abc" (by decide) (by decide) (by decide)

/-- A successful HTTP response with an empty payload: either the
`Content-Length` header is the string `"0"`, or the body written to disk
has zero bytes. -/
def isZeroPayload : AttemptOutcome → Bool
  | .success contentLength bodySize => contentLength == some "0" || bodySize == 0
  | .httpError _ => false

/-- Did the attempt's `try` block complete without raising? -/
def attemptOk (o : AttemptOutcome) : Bool :=
  (runAttempt o).2.isOk

/-- On a zero-payload attempt the loop body raises (`ZeroSizeException`,
or `ValueError` from `int()` on a malformed header) before or after a
zero-byte write, and the final wrap of that exception is
`DownloadException`. -/
theorem runAttempt_zero (o : AttemptOutcome) (h : isZeroPayload o = true) :
    ∃ w e, runAttempt o = (w, Except.error e)
      ∧ (w = none ∨ w = some 0)
      ∧ finalErr e = DlException.downloadException := by
  cases o with
  | httpError s => simp [isZeroPayload] at h
  | success cl body =>
    have h' : cl = some "0" ∨ body = 0 := by simpa [isZeroPayload] using h
    rcases h' with rfl | rfl
    · exact ⟨none, .zeroSize, rfl, Or.inl rfl, rfl⟩
    · cases cl with
      | none => exact ⟨some 0, .zeroSize, rfl, Or.inr rfl, rfl⟩
      | some hs =>
        by_cases hemp : hs.isEmpty
        · refine ⟨some 0, .zeroSize, ?_, Or.inr rfl, rfl⟩
          simp [runAttempt, hemp]
        · cases hp : pyParseInt hs with
          | none =>
            refine ⟨none, .valueError, ?_, Or.inl rfl, rfl⟩
            simp [runAttempt, hemp, hp]
          | some n =>
            by_cases hn : n = 0
            · refine ⟨none, .zeroSize, ?_, Or.inl rfl, rfl⟩
              simp [runAttempt, hemp, hp, hn]
            · refine ⟨some 0, .zeroSize, ?_, Or.inr rfl, rfl⟩
              simp [runAttempt, hemp, hp, hn]

/-- Loop invariant for the zero-payload scenario: every iteration fails
with a wrap-to-`DownloadException` error and writes only zero-byte files. -/
theorem dlGo_zero (outcome : Nat → AttemptOutcome)
    (h : ∀ i, isZeroPayload (outcome i) = true) :
    ∀ rem att,
      (dlGo outcome rem att).result = .error .downloadException
      ∧ ∀ w ∈ (dlGo outcome rem att).writes, w = 0 := by
  intro rem
  induction rem with
  | zero =>
    intro att
    obtain ⟨w, e, hx, hw, hfe⟩ := runAttempt_zero (outcome att) (h att)
    rcases hw with rfl | rfl <;> simp [dlGo, hx, hfe]
  | succ rem ih =>
    intro att
    obtain ⟨w, e, hx, hw, hfe⟩ := runAttempt_zero (outcome att) (h att)
    obtain ⟨ihr, ihw⟩ := ih (att + 1)
    rcases hw with rfl | rfl
    · refine ⟨by simpa [dlGo, hx] using ihr, ?_⟩
      intro x hxmem
      simp [dlGo, hx] at hxmem
      exact ihw x hxmem
    · refine ⟨by simpa [dlGo, hx] using ihr, ?_⟩
      intro x hxmem
      simp [dlGo, hx] at hxmem
      rcases hxmem with rfl | hxt
      · rfl
      · exact ihw x hxt

/-- Counterexample to C2 as stated: with every attempt answering success
and `Content-Length: 0`, `download_file` does NOT raise
`ZeroSizeException` — the in-loop `ZeroSizeException` is caught by the
generic `except` of the retry loop and, once retries are exhausted, is
re-wrapped as plain `DownloadException`. -/
theorem download_zero_size_counterexample :
    (download_file 3 (fun _ => .success (some "0") 7)).result =
      .error .downloadException
    ∧ (download_file 3 (fun _ => .success (some "0") 7)).result ≠
      .error .zeroSizeException := by
  have h : (download_file 3 (fun _ => .success (some "0") 7)).result =
      .error .downloadException := rfl
  exact ⟨h, by simp [h]⟩

/-- C2 amended: with a successful response advertising `Content-Length: 0`
(or a zero-byte body on disk) on every attempt, `download_file` raises
`ZeroSizeException` only inside the retry loop; the surfaced exception
after retries are exhausted is `DownloadException`, and no cache file
larger than zero bytes is written. -/
theorem download_zero_size_wrapped (retries : Nat)
    (outcome : Nat → AttemptOutcome)
    (h : ∀ i, isZeroPayload (outcome i) = true) :
    (download_file retries outcome).result = .error .downloadException
    ∧ ∀ w ∈ (download_file retries outcome).writes, w = 0 :=
  dlGo_zero outcome h retries 0

/-- Witness for the amended C2: one retry, every attempt with
`Content-Length: 0`. -/
theorem download_zero_size_wrapped_witness :
    (download_file 1 (fun _ => .success (some "0") 7)).result =
      .error .downloadException
    ∧ ∀ w ∈ (download_file 1 (fun _ => .success (some "0") 7)).writes,
        w = 0 :=
  download_zero_size_wrapped 1 (fun _ => .success (some "0") 7)
    (fun _ => rfl)

/-- Any exception other than a 429 `ClientResponseError` is wrapped as
plain `DownloadException`. -/
theorem finalErr_of_ne (e : AttemptErr)
    (h : e ≠ .clientResponseError 429) :
    finalErr e = .downloadException := by
  cases e with
  | zeroSize => rfl
  | valueError => rfl
  | clientResponseError s =>
    by_cases hs : s = 429
    · exact absurd (by rw [hs]) h
    · simp [finalErr, hs]

/-- The sleeps of the retry loop are always `1 + attempt` for the failing
attempts `att, att+1, ...`, and there are at most `rem` of them. -/
theorem dlGo_sleeps (outcome : Nat → AttemptOutcome) :
    ∀ rem att, ∃ k, k ≤ rem ∧
      (dlGo outcome rem att).sleeps =
        (List.range k).map (fun i => 1 + (att + i)) := by
  intro rem
  induction rem with
  | zero =>
    intro att
    rcases hx : runAttempt (outcome att) with ⟨w, r⟩
    cases r <;> exact ⟨0, Nat.le_refl 0, by simp [dlGo, hx]⟩
  | succ rem ih =>
    intro att
    rcases hx : runAttempt (outcome att) with ⟨w, r⟩
    cases r with
    | ok _ => exact ⟨0, Nat.zero_le _, by simp [dlGo, hx]⟩
    | error e =>
      obtain ⟨k, hk, hs⟩ := ih (att + 1)
      refine ⟨k + 1, Nat.succ_le_succ hk, ?_⟩
      have hfun : ∀ i, 1 + (att + 1 + i) = 1 + (att + (i + 1)) := by
        intro i; omega
      simp [dlGo, hx, hs, List.range_succ_eq_map, Function.comp,
        hfun]

/-- When every allowed attempt fails, the loop sleeps `1 + attempt` after
each of the first `rem` failures and surfaces the wrap of the LAST
attempt's exception. -/
theorem dlGo_all_fail (outcome : Nat → AttemptOutcome) :
    ∀ rem att,
      (∀ i, att ≤ i → i ≤ att + rem → attemptOk (outcome i) = false) →
      (dlGo outcome rem att).sleeps =
        (List.range rem).map (fun i => 1 + (att + i))
      ∧ ∀ e, (runAttempt (outcome (att + rem))).2 = Except.error e →
          (dlGo outcome rem att).result = .error (finalErr e) := by
  intro rem
  induction rem with
  | zero =>
    intro att h
    rcases hx : runAttempt (outcome att) with ⟨w, r⟩
    cases r with
    | ok _ =>
      have := h att (Nat.le_refl att) (Nat.le_refl _)
      rw [attemptOk, hx] at this
      simp [Except.isOk, Except.toBool] at this
    | error e =>
      refine ⟨by simp [dlGo, hx], ?_⟩
      intro e' he'
      rw [Nat.add_zero, hx] at he'
      simp at he'
      simp [dlGo, hx, he']
  | succ rem ih =>
    intro att h
    rcases hx : runAttempt (outcome att) with ⟨w, r⟩
    cases r with
    | ok _ =>
      have := h att (Nat.le_refl att) (Nat.le_add_right _ _)
      rw [attemptOk, hx] at this
      simp [Except.isOk, Except.toBool] at this
    | error e =>
      obtain ⟨ihs, ihr⟩ := ih (att + 1)
        (fun i h1 h2 => h i (Nat.le_of_succ_le h1) (by omega))
      constructor
      · have hfun : ∀ i, 1 + (att + 1 + i) = 1 + (att + (i + 1)) := by
          intro i; omega
        simp [dlGo, hx, ihs, List.range_succ_eq_map, Function.comp, hfun]
      · intro e' he'
        have : att + (rem + 1) = att + 1 + rem := by omega
        rw [this] at he'
        simpa [dlGo, hx] using ihr e' he'

/-- C6: the retry policy of `download_file` with
`N = download_retry_times`: at most `N` sleeps happen (so at most `N`
additional attempts after the first), each sleep is `1 + attempt` time
units in attempt order; if every attempt fails and the last failure is a
429 `ClientResponseError`, `DownloadLimitException` is raised; if the last
failure is anything else, `DownloadException` is raised. -/
theorem download_retry_policy (retries : Nat)
    (outcome : Nat → AttemptOutcome) :
    (∃ k, k ≤ retries ∧
      (download_file retries outcome).sleeps =
        (List.range k).map (fun i => 1 + i))
    ∧ ((∀ i, i ≤ retries → attemptOk (outcome i) = false) →
      (download_file retries outcome).sleeps =
        (List.range retries).map (fun i => 1 + i)
      ∧ ((runAttempt (outcome retries)).2 =
            .error (.clientResponseError 429) →
          (download_file retries outcome).result =
            .error .downloadLimitException)
      ∧ (∀ e, (runAttempt (outcome retries)).2 = Except.error e →
          e ≠ .clientResponseError 429 →
          (download_file retries outcome).result =
            .error .downloadException)) := by
  constructor
  · obtain ⟨k, hk, hs⟩ := dlGo_sleeps outcome retries 0
    exact ⟨k, hk, by simpa using hs⟩
  · intro h
    obtain ⟨hs, hr⟩ := dlGo_all_fail outcome retries 0
      (fun i _ h2 => h i (by omega))
    refine ⟨by simpa using hs, ?_, ?_⟩
    · intro h429
      have := hr _ (by simpa using h429)
      simpa [finalErr] using this
    · intro e he hne
      have := hr e (by simpa using he)
      rw [download_file, this, finalErr_of_ne e hne]

/-- Witness for C6: two retries, every attempt a 429 — sleeps `[1, 2]`,
then `DownloadLimitException`. -/
theorem download_retry_policy_witness :
    (download_file 2 (fun _ => .httpError 429)).sleeps =
      (List.range 2).map (fun i => 1 + i)
    ∧ (download_file 2 (fun _ => .httpError 429)).result =
      .error .downloadLimitException := by
  obtain ⟨hs, h429, _⟩ :=
    (download_retry_policy 2 (fun _ => .httpError 429)).2 (fun i _ => rfl)
  exact ⟨hs, h429 rfl⟩

end KeylolPlugin
